import Mathlib

set_option maxRecDepth 8000

/-!
Verification development for the renderer core of a JSON-schema-to-code
generator, centred on the Ruby target (`src/Language/Ruby.ts`) and the
Kotlin target's property-omission logic.  The type IR and the rendering
hooks are shallowly embedded as executable Lean functions; strings are
built exactly as the source concatenates its fragments.  Name resolution
happens before these hooks run in the source, so named types carry their
resolved identifier strings here.

Recursive hooks in the source recurse through `nullableFromUnion`, whose
result is a list member rather than a syntactic subterm; the embedding
therefore uses an explicit fuel argument for structural recursion.  Each
wrapper instantiates the fuel at the structural size of the type term,
which strictly bounds every recursion path.
-/

/-- Type IR consumed by the renderer: the kind tags of `../Type` with the
payload each rendering hook actually inspects (item, value and member
types, and the resolved name of a named type). -/
inductive RType where
  | anyType
  | nullType
  | boolType
  | integerType
  | doubleType
  | stringType
  | arrayType (items : RType)
  | classType (name : String)
  | mapType (values : RType)
  | enumType (name : String)
  | unionType (name : String) (members : List RType)
deriving Repr

/-- Kind test for the `null` type, used by `nullableFromUnion`. -/
def RType.isNull : RType → Bool
  | RType.nullType => true
  | _ => false

mutual

/-- Structural size of a type term, used as the fuel bound for the
recursive rendering hooks. -/
def RType.size : RType → Nat
  | RType.anyType => 1
  | RType.nullType => 1
  | RType.boolType => 1
  | RType.integerType => 1
  | RType.doubleType => 1
  | RType.stringType => 1
  | RType.arrayType items => items.size + 1
  | RType.classType _ => 1
  | RType.mapType values => values.size + 1
  | RType.enumType _ => 1
  | RType.unionType _ ms => RType.sizeList ms + 1

/-- Sum of the sizes of a list of type terms. -/
def RType.sizeList : List RType → Nat
  | [] => 0
  | t :: ts => t.size + RType.sizeList ts

end

/-- Modelled from the spec: `nullableFromUnion` of `../Type` (not under
`src/`).  Per invariant 3 of the data model, a union with exactly one
non-null member and a `null` member is a nullable; the function returns
that non-null member, and `none` otherwise. -/
def nullableFromUnion (members : List RType) : Option RType :=
  if members.any RType.isNull then
    match members.filter (fun t => !t.isNull) with
    | [t] => some t
    | _ => none
  else none

/-- Hex rendering of a code point, for `unicodeEscape`. -/
def intToHex (n : Nat) : String :=
  String.mk (Nat.toDigits 16 n)

/-- Modelled from the spec: `isPrintable` of `../Strings` (not under
`src/`); non-printable code points are the C0 and C1 control blocks.  All
strings exercised by the claims are printable ASCII. -/
def isPrintable (c : Nat) : Bool :=
  decide (0x20 ≤ c) && !(decide (0x7f ≤ c) && decide (c ≤ 0x9f))

/-- Escape for a non-printable code point (`unicodeEscape` in
`src/Language/Ruby.ts`). -/
def unicodeEscape (c : Nat) : String :=
  "\\u\x7b" ++ intToHex c ++ "\x7d"

/-- The `stringEscape` of `src/Language/Ruby.ts`: map every code point,
escaping the non-printable ones (`utf32ConcatMap`, `escapeNonPrintableMapper`
of `../Strings` modelled from the spec). -/
def stringEscape (s : String) : String :=
  String.join (s.data.map (fun ch =>
    if isPrintable ch.toNat then String.singleton ch else unicodeEscape ch.toNat))

/-- Fueled body of `RubyRenderer.marshalsImplicitly`
(`src/Language/Ruby.ts`, lines 268 to 289). -/
def marshalsImplicitlyF : Nat → RType → Bool
  | 0, _ => false
  | fuel + 1, t =>
    match t with
    | RType.anyType => true
    | RType.nullType => true
    | RType.boolType => true
    | RType.integerType => true
    | RType.doubleType => true
    | RType.stringType => true
    | RType.arrayType items => marshalsImplicitlyF fuel items
    | RType.classType _ => false
    | RType.mapType _ => false
    | RType.enumType _ => true
    | RType.unionType _ ms =>
      match nullableFromUnion ms with
      | some nn => marshalsImplicitlyF fuel nn
      | none => ms.all (fun c => marshalsImplicitlyF fuel c)

/-- `RubyRenderer.marshalsImplicitly`: true when the JSON shape of `t`
equals its domain shape at every depth. -/
def marshalsImplicitly (t : RType) : Bool :=
  marshalsImplicitlyF t.size t

/-- Fueled body of `RubyRenderer.fromDynamic`
(`src/Language/Ruby.ts`, lines 210 to 243): the source fragment converting
a JSON-shaped expression `e` of type `t` to the domain representation. -/
def fromDynamicF : Nat → RType → String → Bool → String
  | 0, _, _, _ => ""
  | fuel + 1, t, e, optional =>
    match t with
    | RType.anyType => e
    | RType.nullType => e
    | RType.boolType => e
    | RType.integerType => e
    | RType.doubleType => e
    | RType.stringType => e
    | RType.arrayType items =>
        e ++ (if optional then "&" else "") ++ ".map \x7b |x| "
          ++ fromDynamicF fuel items "x" false ++ " \x7d"
    | RType.classType name =>
        let expression := name ++ ".from_dynamic(" ++ e ++ ")"
        if optional then e ++ " ? " ++ expression ++ " : nil" else expression
    | RType.mapType values =>
        e ++ (if optional then "&" else "") ++ ".map \x7b |k, v| [k, "
          ++ fromDynamicF fuel values "v" false ++ "] \x7d.to_h"
    | RType.enumType name =>
        let expression := "Types::" ++ name ++ "[" ++ e ++ "]"
        if optional then e ++ ".nil? ? nil : " ++ expression else expression
    | RType.unionType _ ms =>
      match nullableFromUnion ms with
      | some nn => e ++ ".nil? ? nil : " ++ fromDynamicF fuel nn e false
      | none => "raise \x27implement union from_dynamic\x27"

/-- `RubyRenderer.fromDynamic` with the fuel instantiated. -/
def fromDynamic (t : RType) (e : String) (optional : Bool) : String :=
  fromDynamicF t.size t e optional

/-- Fueled body of `RubyRenderer.toDynamic`
(`src/Language/Ruby.ts`, lines 245 to 266).  Note that the nullable union
branch of the source calls `fromDynamic` on the non-null member; the
translation reproduces that call direction. -/
def toDynamicF : Nat → RType → String → Bool → String
  | 0, _, _, _ => ""
  | fuel + 1, t, e, optional =>
    match t with
    | RType.anyType => e
    | RType.nullType => e
    | RType.boolType => e
    | RType.integerType => e
    | RType.doubleType => e
    | RType.stringType => e
    | RType.arrayType items =>
        e ++ (if optional then "&" else "") ++ ".map \x7b |x| "
          ++ toDynamicF fuel items "x" false ++ " \x7d"
    | RType.classType _ =>
        e ++ (if optional then "&" else "") ++ ".to_dynamic"
    | RType.mapType values =>
        e ++ (if optional then "&" else "") ++ ".map \x7b |k, v| [k, "
          ++ toDynamicF fuel values "v" false ++ "] \x7d.to_h"
    | RType.enumType _ => e
    | RType.unionType _ ms =>
      match nullableFromUnion ms with
      | some nn => e ++ ".nil? ? nil : " ++ fromDynamicF fuel nn e false
      | none => "raise \x27implement union to_dynamic\x27"

/-- `RubyRenderer.toDynamic` with the fuel instantiated. -/
def toDynamic (t : RType) (e : String) (optional : Bool) : String :=
  toDynamicF t.size t e optional

/-- Fueled body of `RubyRenderer.dryType`
(`src/Language/Ruby.ts`, lines 181 to 208): the `dry-types` type
expression for a field annotation. -/
def dryTypeF : Nat → RType → Bool → String
  | 0, _, _ => ""
  | fuel + 1, t, isOptional =>
    let optional := if isOptional then ".optional" else ""
    match t with
    | RType.anyType => "Types::Any" ++ optional
    | RType.nullType => "Types::Nil" ++ optional
    | RType.boolType => "Types::Strict::Bool" ++ optional
    | RType.integerType => "Types::Strict::Int" ++ optional
    | RType.doubleType => "Types::Strict::Decimal" ++ optional
    | RType.stringType => "Types::Strict::String" ++ optional
    | RType.arrayType items =>
        "Types.Array(" ++ dryTypeF fuel items false ++ ")" ++ optional
    | RType.classType name => "Types.Instance(" ++ name ++ ")" ++ optional
    | RType.mapType values =>
        "Types::Strict::Hash.meta(of: " ++ dryTypeF fuel values false ++ ")" ++ optional
    | RType.enumType name => "Types::" ++ name ++ optional
    | RType.unionType name ms =>
      match nullableFromUnion ms with
      | some nn => dryTypeF fuel nn false ++ ".optional"
      | none =>
        if marshalsImplicitly (RType.unionType name ms) then
          let union := " | ".intercalate (ms.map (fun c => dryTypeF fuel c false))
          if isOptional then "(" ++ union ++ ")" ++ optional else union
        else "Types.Instance(" ++ name ++ ")" ++ optional

/-- `RubyRenderer.dryType` with the fuel instantiated. -/
def dryType (t : RType) (isOptional : Bool) : String :=
  dryTypeF t.size t isOptional

/-- A class property as the renderer sees it after name assignment:
the assigned Ruby attribute name, the raw JSON key, the type, the
optional flag, and an optional description block. -/
structure RProperty where
  name : String
  jsonName : String
  type : RType
  isOptional : Bool
  description : Option (List String) := none

/-- A class with its assigned name and ordered properties. -/
structure RClass where
  name : String
  properties : List RProperty

/-- An enum with its assigned name and ordered cases, each carrying the
assigned case identifier and the raw JSON string. -/
structure REnum where
  name : String
  cases : List (String × String)

/-- Modelled from the spec: `emitTable` of the convenience renderer (not
under `src/`) aligns each column to its widest cell.  Rows here have two
cells; the first cell is padded to the width of the widest first cell. -/
def alignTable (rows : List (String × String)) : List String :=
  let w := (rows.map (fun r => r.1.length)).foldl max 0
  rows.map (fun r => r.1 ++ String.mk (List.replicate (w - r.1.length) ' ') ++ r.2)

/-- Concatenation of the two cells of a table row: the row's content
before column alignment padding is applied. -/
def rowText (row : String × String) : String :=
  row.1 ++ row.2

/-- Attribute declaration row of `RubyRenderer.emitClass`
(`src/Language/Ruby.ts`, lines 305 to 308). -/
def attributeRow (p : RProperty) : String × String :=
  ("attribute :" ++ p.name ++ ",",
   " " ++ dryType p.type false ++ (if p.isOptional then ".optional" else ""))

/-- The `d["<jsonName>"]` accessor built by `emitClass`
(`src/Language/Ruby.ts`, line 334). -/
def dynamicAccessor (p : RProperty) : String :=
  "d[\"" ++ stringEscape p.jsonName ++ "\"]"

/-- Initializer row of the generated `from_dynamic`
(`src/Language/Ruby.ts`, lines 333 to 343): raw pass-through when the
property type marshals implicitly, otherwise the `fromDynamic` fragment. -/
def fromDynamicInit (p : RProperty) : String × String :=
  let dynamic := dynamicAccessor p
  let expression :=
    if marshalsImplicitly p.type then dynamic
    else fromDynamic p.type dynamic p.isOptional
  (p.name ++ ": ", expression ++ ",")

/-- Entry row of the generated `to_dynamic`
(`src/Language/Ruby.ts`, lines 360 to 370): raw pass-through of the
`@name` instance variable when the property type marshals implicitly,
otherwise the `toDynamic` fragment. -/
def toDynamicInit (p : RProperty) : String × String :=
  let dynamic := "@" ++ p.name
  let expression :=
    if marshalsImplicitly p.type then dynamic
    else toDynamic p.type dynamic p.isOptional
  ("\"" ++ stringEscape p.jsonName ++ "\"", " => " ++ expression ++ ",")

/-- Indent a block of lines by one indentation unit (the Ruby target's
`defaultIndentation` is two spaces); blank lines stay blank. -/
def indentLines (lines : List String) : List String :=
  lines.map (fun l => if l = "" then "" else "  " ++ l)

/-- Append a blank line unless the output already ends in one
(`ensureBlankLine` of the emit engine). -/
def ensureBlank (lines : List String) : List String :=
  if lines.getLast? = some "" then lines else lines ++ [""]

/-- Description comment block (`emitDescriptionBlock`,
`src/Language/Ruby.ts`, lines 149 to 151). -/
def descriptionBlock (lines : List String) : List String :=
  lines.map (fun l => "# " ++ l)

/-- Attribute section of `emitClass` (`src/Language/Ruby.ts`, lines 300 to
326): rows accumulate into a table; a described property flushes the
pending table, emits its description and its own unaligned line, and a
blank line on each side as the source requests. -/
def attributeSection : List String → List (String × String) → List RProperty → List String
  | acc, table, [] => acc ++ (if table.isEmpty then [] else alignTable table)
  | acc, table, p :: rest =>
    match p.description with
    | some d =>
      let acc1 := acc ++ (if table.isEmpty then [] else alignTable table)
      let acc2 := ensureBlank acc1 ++ descriptionBlock d ++ [rowText (attributeRow p)]
      let acc3 := if rest.isEmpty then acc2 else ensureBlank acc2
      attributeSection acc3 [] rest
    | none => attributeSection acc (table ++ [attributeRow p]) rest

/-- Lines of the generated class body, following `RubyRenderer.emitClass`
(`src/Language/Ruby.ts`, lines 297 to 381): attribute table, then the
`from_dynamic`, `from_json`, `to_dynamic` and `to_json` methods. -/
def emitClassLines (c : RClass) : List String :=
  ["class " ++ c.name ++ " < Dry::Struct"]
    ++ indentLines (
      attributeSection [] [] c.properties
      ++ [""]
      ++ ["def self.from_dynamic(d)"]
      ++ indentLines ([c.name ++ ".new("]
        ++ indentLines (alignTable (c.properties.map fromDynamicInit))
        ++ [")"])
      ++ ["end"]
      ++ [""]
      ++ ["def self.from_json(json)", "  from_dynamic(JSON.parse(json))", "end"]
      ++ [""]
      ++ ["def to_dynamic"]
      ++ indentLines (["\x7b"]
        ++ indentLines (alignTable (c.properties.map toDynamicInit))
        ++ ["\x7d"])
      ++ ["end"]
      ++ [""]
      ++ ["def to_json(options = nil)", "  JSON.generate(to_dynamic, options)", "end"])
    ++ ["end"]

/-- Lines of the enum value-table module, following
`RubyRenderer.emitEnum` (`src/Language/Ruby.ts`, lines 383 to 392). -/
def emitEnumLines (e : REnum) : List String :=
  ["module " ++ e.name]
    ++ indentLines (alignTable (e.cases.map (fun c =>
        (c.1, " = \"" ++ stringEscape c.2 ++ "\""))))
    ++ ["end"]

/-- Declaration line inside the `Types` module, following
`RubyRenderer.emitEnumDeclaration` (`src/Language/Ruby.ts`, lines 414 to
420). -/
def emitEnumDeclarationLine (e : REnum) : String :=
  e.name ++ " = Types::String.enum("
    ++ ", ".intercalate (e.cases.map (fun c => "\"" ++ stringEscape c.2 ++ "\""))
    ++ ")"

/-- Header line of the wrapper class a non-implicit union receives, from
`RubyRenderer.emitUnion` (`src/Language/Ruby.ts`, lines 394 to 412): an
implicitly marshalled union gets no struct container at all. -/
def emitUnionHeader (u : RType) (name : String) : Option String :=
  if marshalsImplicitly u then none
  else some ("class " ++ name ++ " < Dry::Struct")

/-- The `Evolution` class of the pokedex schema
(`src/test/fixtures/ruby/TopLevel.rb`). -/
def evolutionClass : RClass :=
  ⟨"Evolution",
   [⟨"num", "num", RType.stringType, false, none⟩,
    ⟨"name", "name", RType.stringType, false, none⟩]⟩

/-- The `Egg` enum of the pokedex schema, with the assigned case
identifiers of the golden fixture. -/
def eggEnum : REnum :=
  ⟨"Egg",
   [("NotInEggs", "Not in Eggs"),
    ("OmanyteCandy", "Omanyte Candy"),
    ("The10KM", "10 km"),
    ("The2KM", "2 km"),
    ("The5KM", "5 km")]⟩

/-- The `Weakness` enum of the pokedex schema. -/
def weaknessEnum : REnum :=
  ⟨"Weakness",
   [("Bug", "Bug"), ("Dark", "Dark"), ("Dragon", "Dragon"),
    ("Electric", "Electric"), ("Fairy", "Fairy"), ("Fighting", "Fighting"),
    ("Fire", "Fire"), ("Flying", "Flying"), ("Ghost", "Ghost"),
    ("Grass", "Grass"), ("Ground", "Ground"), ("Ice", "Ice"),
    ("Poison", "Poison"), ("Psychic", "Psychic"), ("Rock", "Rock"),
    ("Steel", "Steel"), ("Water", "Water")]⟩

/-- The `Pokemon` class of the pokedex schema: seventeen properties in
declaration order, as in the golden fixture. -/
def pokemonClass : RClass :=
  ⟨"Pokemon",
   [⟨"id", "id", RType.integerType, false, none⟩,
    ⟨"num", "num", RType.stringType, false, none⟩,
    ⟨"name", "name", RType.stringType, false, none⟩,
    ⟨"img", "img", RType.stringType, false, none⟩,
    ⟨"type", "type", RType.arrayType RType.stringType, false, none⟩,
    ⟨"height", "height", RType.stringType, false, none⟩,
    ⟨"weight", "weight", RType.stringType, false, none⟩,
    ⟨"candy", "candy", RType.stringType, false, none⟩,
    ⟨"candy_count", "candy_count", RType.integerType, true, none⟩,
    ⟨"egg", "egg", RType.enumType "Egg", false, none⟩,
    ⟨"spawn_chance", "spawn_chance", RType.doubleType, false, none⟩,
    ⟨"avg_spawns", "avg_spawns", RType.doubleType, false, none⟩,
    ⟨"spawn_time", "spawn_time", RType.stringType, false, none⟩,
    ⟨"multipliers", "multipliers", RType.arrayType RType.doubleType, true, none⟩,
    ⟨"weaknesses", "weaknesses", RType.arrayType (RType.enumType "Weakness"), false, none⟩,
    ⟨"next_evolution", "next_evolution", RType.arrayType (RType.classType "Evolution"), true, none⟩,
    ⟨"prev_evolution", "prev_evolution", RType.arrayType (RType.classType "Evolution"), true, none⟩]⟩

/-- The top-level class of the pokedex schema. -/
def topLevelClass : RClass :=
  ⟨"TopLevel", [⟨"pokemon", "pokemon", RType.arrayType (RType.classType "Pokemon"), false, none⟩]⟩

/-- A named type of the graph, as dispatched by `forEachNamedType`. -/
inductive RNamedType where
  | classDecl (c : RClass)
  | enumDecl (e : REnum)
  | unionDecl (u : RType) (name : String)

/-- Lines emitted for one named type by the body pass of
`emitSourceStructure` (`src/Language/Ruby.ts`, lines 450 to 455). -/
def emitNamedType : RNamedType → List String
  | RNamedType.classDecl c => emitClassLines c
  | RNamedType.enumDecl e => emitEnumLines e
  | RNamedType.unionDecl u name =>
    match emitUnionHeader u name with
    | some header => [header]
    | none => []

/-- Modelled from the spec: the order in which `forEachNamedType` of the
convenience renderer (not under `src/`) visits the pokedex named types.
With `needsTypeDeclarationBeforeUse = true` leaves precede referring
types; the concrete order is the one of the golden fixture
`src/test/fixtures/ruby/TopLevel.rb`. -/
def pokedexEmissionOrder : List RNamedType :=
  [RNamedType.enumDecl eggEnum,
   RNamedType.classDecl evolutionClass,
   RNamedType.enumDecl weaknessEnum,
   RNamedType.classDecl pokemonClass,
   RNamedType.classDecl topLevelClass]

/-- First line of each named-type section in emission order. -/
def pokedexSectionHeaders : List String :=
  pokedexEmissionOrder.filterMap (fun nt => (emitNamedType nt).head?)

/-- The `Types` module emitted by `emitSourceStructure`
(`src/Language/Ruby.ts`, lines 440 to 448): the `Dry::Types` include
followed by one enum declaration line per enum, classes and unions
skipped. -/
def typesModuleLines (enums : List REnum) : List String :=
  ["module Types"]
    ++ indentLines ("include Dry::Types.module" :: enums.map emitEnumDeclarationLine)
    ++ ["end"]

/-- Full body of the generated pokedex file after the require lines:
the `Types` module, then each named type separated by blank lines
(`leading-and-interposing`). -/
def pokedexRenderedBody : List String :=
  typesModuleLines [eggEnum, weaknessEnum]
    ++ (pokedexEmissionOrder.map (fun nt => "" :: emitNamedType nt)).flatten

/-- The Ruby reserved words guarded by the renderer
(`src/Language/Ruby.ts`, lines 29 to 71). -/
def rubyKeywords : List String :=
  ["__ENCODING__", "__FILE__", "__LINE__", "alias", "and", "begin", "BEGIN",
   "break", "case", "class", "def", "defined?", "do", "else", "elsif", "end",
   "END", "ensure", "false", "for", "if", "in", "module", "next", "nil",
   "not", "or", "redo", "rescue", "retry", "return", "self", "super", "then",
   "true", "undef", "unless", "until", "when", "while", "yield"]

/-- Word character test of the naming pipeline, ASCII restriction. -/
def isWordChar (c : Char) : Bool :=
  c.isAlpha || c.isDigit

/-- Close the word being accumulated (characters are kept reversed). -/
def pushWord (w : List Char) (acc : List String) : List String :=
  if w.isEmpty then acc else acc ++ [String.mk w.reverse]

/-- Modelled from the spec: the word splitter of `../Strings` (not under
`src/`), section 4.1: words are separated by runs of non-identifier
characters and by lowercase-to-uppercase transitions. -/
def splitWordsGo : List Char → List Char → List String → List String
  | [], w, acc => pushWord w acc
  | c :: rest, w, acc =>
    if !isWordChar c then splitWordsGo rest [] (pushWord w acc)
    else
      match w with
      | [] => splitWordsGo rest [c] acc
      | p :: _ =>
        if p.isLower && c.isUpper then splitWordsGo rest [c] (pushWord w acc)
        else splitWordsGo rest (c :: w) acc

/-- Split an identifier or label into words. -/
def splitIntoWords (s : String) : List String :=
  splitWordsGo s.data [] []

/-- ASCII lowercase conversion of a character. -/
def charToLower (c : Char) : Char :=
  if c.isUpper then Char.ofNat (c.toNat + 32) else c

/-- ASCII lowercase conversion of a word. -/
def wordToLower (w : String) : String :=
  String.mk (w.data.map charToLower)

/-- Modelled from the spec: `memberNameStyle` composed with the word
combinators of `../Strings` (not under `src/`): all-lowercase words joined
by an underscore, with the spec's fixed fallback when nothing remains. -/
def memberNameStyle (s : String) : String :=
  let joined := "_".intercalate ((splitIntoWords s).map wordToLower)
  if joined = "" then "empty" else joined

/-- Render the whole Ruby file: leading usage comment, require lines, the
`Types` module and the named-type body, following
`RubyRenderer.emitSourceStructure` (`src/Language/Ruby.ts`, lines 422 to
473).  Top levels that are named classes are emitted in the body pass, so
the final wrapper pass contributes nothing for the pokedex graph. -/
def renderRubyFile (topLevelNames : List String) (enums : List REnum)
    (order : List RNamedType) : List String :=
  ["# To parse JSON, add \x27dry-struct\x27 and \x27dry-types\x27 gems, then:", "#"]
    ++ topLevelNames.map (fun n =>
        "#   " ++ memberNameStyle n ++ " = " ++ n ++ ".from_json \"...\"")
    ++ ["#", ""]
    ++ ["require \x27json\x27", "require \x27dry-types\x27", "require \x27dry-struct\x27", ""]
    ++ typesModuleLines enums
    ++ (order.map (fun nt => "" :: emitNamedType nt)).flatten

/-- Candidate identifier number `i` of a proposed name: the proposal
itself first, then the numeric suffixes `_2`, `_3` and so on. -/
def candidateName (proposed : String) (i : Nat) : String :=
  if i ≤ 1 then proposed else proposed ++ "_" ++ toString i

/-- Bounded search for the first candidate that is neither forbidden nor
taken. -/
def assignNameGo (blocked : List String) (proposed : String) : Nat → Nat → Option String
  | 0, _ => none
  | fuel + 1, i =>
    if blocked.contains (candidateName proposed i) then
      assignNameGo blocked proposed fuel (i + 1)
    else some (candidateName proposed i)

/-- Modelled from the spec: the `Namer` assignment step (section 4.1, not
under `src/`): an identifier colliding with a forbidden word or an
already-taken name receives a numeric suffix `_2`, `_3`, applied after
styling.  The fuel bound exceeds the number of blocked strings, so the
search cannot in fact fail. -/
def assignName (forbidden taken : List String) (proposed : String) : Option String :=
  assignNameGo (forbidden ++ taken) proposed (forbidden.length + taken.length + 2) 1

/-- Serialization framework option of the Kotlin target
(`src/unnamed/part_003`). -/
inductive Framework where
  | none
  | klaxon
deriving DecidableEq, Repr

/-- Fueled body of `KotlinRenderer.shouldOmit` (`src/unnamed/part_003`,
lines 340 to 361): under the klaxon framework a property type is omitted
when it is a union with no nullable reading, recursing through array
items, map values and the non-null member of a nullable union. -/
def shouldOmitF (fw : Framework) : Nat → RType → Bool
  | 0, _ => false
  | fuel + 1, t =>
    decide (fw = Framework.klaxon) &&
    (match t with
     | RType.anyType => false
     | RType.nullType => false
     | RType.boolType => false
     | RType.integerType => false
     | RType.doubleType => false
     | RType.stringType => false
     | RType.arrayType items => shouldOmitF fw fuel items
     | RType.classType _ => false
     | RType.mapType values => shouldOmitF fw fuel values
     | RType.enumType _ => false
     | RType.unionType _ ms =>
       match nullableFromUnion ms with
       | none => true
       | some nn => shouldOmitF fw fuel nn)

/-- `KotlinRenderer.shouldOmit` with the fuel instantiated. -/
def shouldOmit (fw : Framework) (t : RType) : Bool :=
  shouldOmitF fw t.size t

/-- Annotation properties accumulated by
`KotlinRenderer.klaxonRenameAttribute` (`src/unnamed/part_003`, lines 394
to 405): a rename entry when the styled name differs from the escaped
JSON key, and `ignored = true` when the property is omitted. -/
def klaxonJsonProps (propName jsonName : String) (ignore : Bool) : List String :=
  let escapedName := stringEscape jsonName
  (if propName ≠ escapedName then ["name = \"" ++ escapedName ++ "\""] else [])
    ++ (if ignore then ["ignored = true"] else [])

/-- `KotlinRenderer.klaxonRenameAttribute`: `none` when no annotation
property is needed, otherwise the `@Json` attribute text. -/
def klaxonRenameAttribute (propName jsonName : String) (ignore : Bool) : Option String :=
  let properties := klaxonJsonProps propName jsonName ignore
  if properties.isEmpty then none
  else some ("@Json(" ++ ", ".intercalate properties ++ ")")

/-- The `val` declaration line of `KotlinRenderer.renderClassDefinition`
(`src/unnamed/part_003`, lines 452 to 461): an omitted property is
commented out with a leading `// `. -/
def kotlinValLine (omitted : Bool) (name ty : String) (nullable last : Bool) : String :=
  (if omitted then "// " else "") ++ "val " ++ name ++ ": " ++ ty
    ++ (if nullable then " = null" else "") ++ (if last then "" else ",")

/-- Claim-side predicate for C3, following the claim wording: implicit
marshalling holds exactly for primitives, enums, arrays of implicit item
type, nullable unions of implicit non-null member, and unions all of
whose members are implicit. -/
def marshalsImplicitlyClaimF : Nat → RType → Bool
  | 0, _ => false
  | fuel + 1, t =>
    match t with
    | RType.anyType => true
    | RType.nullType => true
    | RType.boolType => true
    | RType.integerType => true
    | RType.doubleType => true
    | RType.stringType => true
    | RType.arrayType items => marshalsImplicitlyClaimF fuel items
    | RType.classType _ => false
    | RType.mapType _ => false
    | RType.enumType _ => true
    | RType.unionType _ ms =>
      (match nullableFromUnion ms with
       | some nn => marshalsImplicitlyClaimF fuel nn
       | none => false)
      || ms.all (fun c => marshalsImplicitlyClaimF fuel c)

/-- Claim-side predicate for C3 with the fuel instantiated. -/
def marshalsImplicitlyClaim (t : RType) : Bool :=
  marshalsImplicitlyClaimF t.size t

/-- Claim-side predicate for C10, following the claim wording: the
property type is a non-nullable union, or an array or map whose element
or value type recursively contains one. -/
def claimOmitF : Nat → RType → Bool
  | 0, _ => false
  | fuel + 1, t =>
    match t with
    | RType.unionType _ ms => (nullableFromUnion ms).isNone
    | RType.arrayType items => claimOmitF fuel items
    | RType.mapType values => claimOmitF fuel values
    | _ => false

/-- Claim-side predicate for C10 with the fuel instantiated. -/
def claimOmit (t : RType) : Bool :=
  claimOmitF t.size t

/-- The `type: array<string>` property of `Pokemon`. -/
def typeProp : RProperty :=
  ⟨"type", "type", RType.arrayType RType.stringType, false, none⟩

/-- The `egg: Egg` enum property of `Pokemon`. -/
def eggProp : RProperty :=
  ⟨"egg", "egg", RType.enumType "Egg", false, none⟩

/-- The `weaknesses: array<Weakness>` property of `Pokemon`. -/
def weaknessesProp : RProperty :=
  ⟨"weaknesses", "weaknesses", RType.arrayType (RType.enumType "Weakness"), false, none⟩

/-- The optional `next_evolution: array<Evolution>` property of `Pokemon`. -/
def nextEvolutionProp : RProperty :=
  ⟨"next_evolution", "next_evolution", RType.arrayType (RType.classType "Evolution"), true, none⟩

/-- A nullable union with a class member: the shape on which the
serialization direction of the `toDynamic` hook is observable. -/
def evolutionOptUnion : RType :=
  RType.unionType "EvolutionOpt" [RType.nullType, RType.classType "Evolution"]

/-- A union with two non-null members, one a class: neither nullable
nor implicitly marshalled. -/
def intOrFooUnion : RType :=
  RType.unionType "IntOrFoo" [RType.integerType, RType.classType "Foo"]

theorem RType.size_pos (t : RType) : 0 < t.size := by
  cases t <;> simp [RType.size]

theorem RType.le_sizeList_of_mem {t : RType} {ms : List RType} (h : t ∈ ms) :
    t.size ≤ RType.sizeList ms := by
  induction ms with
  | nil => cases h
  | cons x xs ih =>
    rcases List.mem_cons.mp h with h1 | h2
    · subst h1; simp [RType.sizeList]
    · have := ih h2
      simp only [RType.sizeList]
      omega

theorem nullableFromUnion_mem {ms : List RType} {t : RType}
    (h : nullableFromUnion ms = some t) : t ∈ ms := by
  unfold nullableFromUnion at h
  split at h
  · split at h
    · rename_i x heq
      injection h with h2
      subst h2
      have ht : x ∈ ms.filter (fun u => !u.isNull) := by
        rw [heq]
        exact List.mem_singleton.mpr rfl
      exact List.mem_of_mem_filter ht
    · exact absurd h (by simp)
  · exact absurd h (by simp)

theorem list_all_congr {α : Type} {p q : α → Bool} {l : List α}
    (h : ∀ x ∈ l, p x = q x) : l.all p = l.all q := by
  induction l with
  | nil => rfl
  | cons x xs ih =>
    simp only [List.all_cons]
    rw [h x (List.mem_cons_self x xs), ih (fun y hy => h y (List.mem_cons_of_mem x hy))]

theorem marshalsF_eq_claimF : ∀ (fuel : Nat) (t : RType), t.size ≤ fuel →
    marshalsImplicitlyF fuel t = marshalsImplicitlyClaimF fuel t := by
  intro fuel
  induction fuel with
  | zero =>
    intro t ht
    have := RType.size_pos t
    omega
  | succ f ih =>
    intro t ht
    cases t with
    | arrayType items =>
      simp only [marshalsImplicitlyF, marshalsImplicitlyClaimF]
      refine ih items ?_
      simp only [RType.size] at ht
      omega
    | unionType n ms =>
      have hms : RType.sizeList ms ≤ f := by
        simp only [RType.size] at ht
        omega
      have hmem : ∀ c ∈ ms, c.size ≤ f :=
        fun c hc => le_trans (RType.le_sizeList_of_mem hc) hms
      simp only [marshalsImplicitlyF, marshalsImplicitlyClaimF]
      cases hnull : nullableFromUnion ms with
      | some nn =>
        have hnn : nn.size ≤ f := hmem nn (nullableFromUnion_mem hnull)
        have hM := ih nn hnn
        cases hC : marshalsImplicitlyClaimF f nn with
        | true => simp [hM, hC]
        | false =>
          cases hall : ms.all (fun c => marshalsImplicitlyClaimF f c) with
          | false => simp [hM, hC, hall]
          | true =>
            have h2 := List.all_eq_true.mp hall nn (nullableFromUnion_mem hnull)
            simp [hC] at h2
      | none =>
        have hcongr := list_all_congr (fun c hc => ih c (hmem c hc))
        simpa using hcongr
    | anyType => rfl
    | nullType => rfl
    | boolType => rfl
    | integerType => rfl
    | doubleType => rfl
    | stringType => rfl
    | classType n => rfl
    | mapType v => rfl
    | enumType n => rfl

theorem claimOmitF_shouldOmitF : ∀ (fuel : Nat) (t : RType), t.size ≤ fuel →
    claimOmitF fuel t = true → shouldOmitF Framework.klaxon fuel t = true := by
  intro fuel
  induction fuel with
  | zero =>
    intro t ht _
    have := RType.size_pos t
    omega
  | succ f ih =>
    intro t ht hc
    cases t with
    | arrayType items =>
      simp only [claimOmitF] at hc
      simp only [shouldOmitF]
      have := ih items (by simp only [RType.size] at ht; omega) hc
      simp [this]
    | mapType values =>
      simp only [claimOmitF] at hc
      simp only [shouldOmitF]
      have := ih values (by simp only [RType.size] at ht; omega) hc
      simp [this]
    | unionType n ms =>
      simp only [claimOmitF] at hc
      simp only [shouldOmitF]
      rw [Option.isNone_iff_eq_none] at hc
      rw [hc]
      simp
    | anyType => simp [claimOmitF] at hc
    | nullType => simp [claimOmitF] at hc
    | boolType => simp [claimOmitF] at hc
    | integerType => simp [claimOmitF] at hc
    | doubleType => simp [claimOmitF] at hc
    | stringType => simp [claimOmitF] at hc
    | classType nm => simp [claimOmitF] at hc
    | enumType nm => simp [claimOmitF] at hc

theorem shouldOmitF_none (fuel : Nat) (t : RType) :
    shouldOmitF Framework.none fuel t = false := by
  cases fuel with
  | zero => rfl
  | succ f => simp [shouldOmitF]

theorem assignNameGo_not_blocked {blocked : List String} {proposed r : String} :
    ∀ (fuel i : Nat), assignNameGo blocked proposed fuel i = some r → ¬ r ∈ blocked := by
  intro fuel
  induction fuel with
  | zero =>
    intro i h
    simp [assignNameGo] at h
  | succ f ih =>
    intro i h
    simp only [assignNameGo] at h
    split at h
    · exact ih (i + 1) h
    · rename_i hc
      injection h with h2
      subst h2
      simpa using hc

theorem string_empty_append (s : String) : "" ++ s = s := rfl

/-- C1: the claim requires the `toDynamic` hook on a nullable union to
convert the non-null member with its to-dynamic conversion; the code at
`src/Language/Ruby.ts` line 261 instead calls `fromDynamic`, so a nullable
`Evolution` serializes through `Evolution.from_dynamic(...)` while the
direct class case shows the intended `to_dynamic` direction. -/
theorem c1_toDynamic_nullable_emits_fromDynamic :
    toDynamic evolutionOptUnion "@foo" false
        = "@foo.nil? ? nil : Evolution.from_dynamic(@foo)"
      ∧ toDynamic (RType.classType "Evolution") "@foo" false = "@foo.to_dynamic" := by
  decide

/-- C2: whenever `marshalsImplicitly` holds of a property type, the
generated `from_dynamic` and `to_dynamic` entries are the raw pass-through
of the input expression, and the `type: array<string>` property of
`Pokemon` collapses to `type: d["type"],` with no `.map` wrapper. -/
theorem c2_implicit_pass_through :
    (∀ p : RProperty, marshalsImplicitly p.type = true →
      fromDynamicInit p = (p.name ++ ": ", dynamicAccessor p ++ ",")
        ∧ toDynamicInit p
            = ("\"" ++ stringEscape p.jsonName ++ "\"", " => " ++ ("@" ++ p.name) ++ ","))
      ∧ rowText (fromDynamicInit typeProp) = "type: d[\"type\"]," := by
  constructor
  · intro p h
    constructor
    · simp [fromDynamicInit, h]
    · simp [toDynamicInit, h]
  · decide

/-- Witness for C2 at the concrete `type: array<string>` property. -/
theorem c2_witness :
    marshalsImplicitly typeProp.type = true
      ∧ fromDynamicInit typeProp = ("type: ", "d[\"type\"],") := by
  have h : marshalsImplicitly typeProp.type = true := by decide
  refine ⟨h, ?_⟩
  have h2 := (c2_implicit_pass_through.1 typeProp h).1
  rw [h2]
  decide

/-- C3: `marshalsImplicitly` returns true exactly for primitive kinds,
enums, arrays of implicitly marshalled items, nullable unions of an
implicitly marshalled non-null member, and unions all of whose members
marshal implicitly, and false for every class and map type, as stated by
the claim-side characterization. -/
theorem c3_marshalsImplicitly_characterization (t : RType) :
    marshalsImplicitly t = marshalsImplicitlyClaim t :=
  marshalsF_eq_claimF t.size t le_rfl

/-- C4 counterexample: the emitted `from_dynamic` right-hand side for the
enum property `egg` is the raw accessor `d["egg"]`, not the value-table
lookup `Types::Egg[d["egg"]]` the claim expects, and likewise the
array-of-enum property `weaknesses` has no `.map` lookup. -/
theorem c4_counterexample :
    rowText (fromDynamicInit eggProp) = "egg: d[\"egg\"],"
      ∧ rowText (fromDynamicInit eggProp) ≠ "egg: Types::Egg[d[\"egg\"]],"
      ∧ rowText (fromDynamicInit weaknessesProp) = "weaknesses: d[\"weaknesses\"],"
      ∧ rowText (fromDynamicInit weaknessesProp)
          ≠ "weaknesses: d[\"weaknesses\"].map \x7b |x| Types::Weakness[x] \x7d," := by
  decide

/-- C4 amended: the `fromDynamic` hook itself produces the value-table
lookup for an enum type and the per-element lookup for an array of enums,
but class properties of those types marshal implicitly, so `emitClass`
emits the raw accessor for them. -/
theorem c4_amended_enum_lookup :
    fromDynamic (RType.enumType "Egg") "d[\"egg\"]" false = "Types::Egg[d[\"egg\"]]"
      ∧ fromDynamic (RType.arrayType (RType.enumType "Weakness")) "d[\"weaknesses\"]" false
          = "d[\"weaknesses\"].map \x7b |x| Types::Weakness[x] \x7d"
      ∧ rowText (fromDynamicInit eggProp) = "egg: d[\"egg\"],"
      ∧ rowText (fromDynamicInit weaknessesProp) = "weaknesses: d[\"weaknesses\"]," := by
  decide

/-- C5 counterexample: for the optional `next_evolution` property the code
emits safe-navigation fragments (`&.map`), not the `.nil? ? nil :`
conditionals the claim quotes. -/
theorem c5_counterexample :
    rowText (fromDynamicInit nextEvolutionProp)
        = "next_evolution: d[\"next_evolution\"]&.map \x7b |x| Evolution.from_dynamic(x) \x7d,"
      ∧ rowText (fromDynamicInit nextEvolutionProp)
          ≠ "next_evolution: d[\"next_evolution\"].nil? ? nil : d[\"next_evolution\"].map \x7b |x| Evolution.from_dynamic(x) \x7d,"
      ∧ rowText (toDynamicInit nextEvolutionProp)
          ≠ "\"next_evolution\" => @next_evolution.nil? ? nil : @next_evolution.map \x7b |x| x.to_dynamic \x7d," := by
  decide

/-- C5 amended: the `from_dynamic` entry for `next_evolution` is the
safe-navigation form `d["next_evolution"]&.map { |x| Evolution.from_dynamic(x) },`
and the `to_dynamic` entry is `"next_evolution" => @next_evolution&.map { |x| x.to_dynamic },`. -/
theorem c5_amended_lines :
    rowText (fromDynamicInit nextEvolutionProp)
        = "next_evolution: d[\"next_evolution\"]&.map \x7b |x| Evolution.from_dynamic(x) \x7d,"
      ∧ rowText (toDynamicInit nextEvolutionProp)
          = "\"next_evolution\" => @next_evolution&.map \x7b |x| x.to_dynamic \x7d," := by
  decide

/-- C6: for a union that is neither nullable nor implicitly marshalled the
renderer does emit a named wrapper struct, but the `fromDynamic` hook
emits the unconditional placeholder `raise` instead of the JSON-guard
discriminator the claim (and the spec) require. -/
theorem c6_explicit_union_placeholder :
    emitUnionHeader intOrFooUnion "IntOrFoo" = some "class IntOrFoo < Dry::Struct"
      ∧ fromDynamic intOrFooUnion "d[\"value\"]" false
          = "raise \x27implement union from_dynamic\x27" := by
  decide

/-- C7 counterexample: the Ruby forbidden list has 41 entries, not the 42
the claim states. -/
theorem c7_counterexample :
    rubyKeywords.length = 41 ∧ rubyKeywords.length ≠ 42 := by
  decide

/-- C7 amended: every name the namer assigns avoids the forbidden list and
the already-taken names (so no assigned identifier equals any of the 41
Ruby reserved words), and a property disambiguated away from `class`
keeps the raw JSON key `class` in the generated converter. -/
theorem c7_amended_keyword_avoidance :
    (∀ (forbidden taken : List String) (proposed r : String),
        assignName forbidden taken proposed = some r → ¬ r ∈ forbidden ∧ ¬ r ∈ taken)
      ∧ rowText (fromDynamicInit ⟨"class_2", "class", RType.stringType, false, none⟩)
          = "class_2: d[\"class\"]," := by
  constructor
  · intro forbidden taken proposed r h
    unfold assignName at h
    have hb := assignNameGo_not_blocked _ _ h
    exact ⟨fun hf => hb (List.mem_append.mpr (Or.inl hf)),
           fun h2 => hb (List.mem_append.mpr (Or.inr h2))⟩
  · decide

/-- Witness for C7: the styled proposal `class` collides with a reserved
word and is assigned `class_2`, which the theorem places outside the
forbidden list. -/
theorem c7_witness :
    assignName rubyKeywords [] (memberNameStyle "class") = some "class_2"
      ∧ ¬ "class_2" ∈ rubyKeywords := by
  have h : assignName rubyKeywords [] (memberNameStyle "class") = some "class_2" := by
    decide
  exact ⟨h,
    (c7_amended_keyword_avoidance.1 rubyKeywords [] (memberNameStyle "class") "class_2" h).1⟩

/-- C8 counterexample: the generated pokedex body does not place both enum
value-table modules before the classes; `Evolution` is emitted between the
`Egg` and `Weakness` modules. -/
theorem c8_counterexample :
    pokedexSectionHeaders
        ≠ ["module Egg", "module Weakness", "class Evolution < Dry::Struct",
           "class Pokemon < Dry::Struct", "class TopLevel < Dry::Struct"]
      ∧ pokedexSectionHeaders
          ≠ ["module Weakness", "module Egg", "class Evolution < Dry::Struct",
             "class Pokemon < Dry::Struct", "class TopLevel < Dry::Struct"]
      ∧ pokedexSectionHeaders.get? 1 = some "class Evolution < Dry::Struct" := by
  refine ⟨by decide, by decide, by decide⟩

/-- C8 amended: the top `Types` module declares `Egg` then `Weakness` as
string enums, and the named-type body follows dependency order with the
value-table modules interleaved: `Egg`, `Evolution`, `Weakness`,
`Pokemon`, `TopLevel`. -/
theorem c8_amended_order :
    typesModuleLines [eggEnum, weaknessEnum]
        = ["module Types",
           "  include Dry::Types.module",
           "  Egg = Types::String.enum(\"Not in Eggs\", \"Omanyte Candy\", \"10 km\", \"2 km\", \"5 km\")",
           "  Weakness = Types::String.enum(\"Bug\", \"Dark\", \"Dragon\", \"Electric\", \"Fairy\", \"Fighting\", \"Fire\", \"Flying\", \"Ghost\", \"Grass\", \"Ground\", \"Ice\", \"Poison\", \"Psychic\", \"Rock\", \"Steel\", \"Water\")",
           "end"]
      ∧ pokedexSectionHeaders
          = ["module Egg", "class Evolution < Dry::Struct", "module Weakness",
             "class Pokemon < Dry::Struct", "class TopLevel < Dry::Struct"] := by
  decide

/-- C9: the renderer is a pure function of the input graph and options:
two invocations on equal inputs produce equal line sequences. -/
theorem c9_render_deterministic (tl1 tl2 : List String) (e1 e2 : List REnum)
    (o1 o2 : List RNamedType) (h1 : tl1 = tl2) (h2 : e1 = e2) (h3 : o1 = o2) :
    renderRubyFile tl1 e1 o1 = renderRubyFile tl2 e2 o2 := by
  subst h1
  subst h2
  subst h3
  rfl

/-- Witness for C9: two renders of the pokedex graph coincide. -/
theorem c9_witness :
    renderRubyFile ["TopLevel"] [eggEnum, weaknessEnum] pokedexEmissionOrder
      = renderRubyFile ["TopLevel"] [eggEnum, weaknessEnum] pokedexEmissionOrder :=
  c9_render_deterministic _ _ _ _ _ _ rfl rfl rfl

/-- C10: under the klaxon framework every property whose type is a
non-nullable union, or an array or map recursively containing one, is
omitted; an omitted property's declaration line is the active line behind
a `// ` comment and its annotation carries `ignored = true`; under
framework `none` nothing is ever omitted. -/
theorem c10_klaxon_omission :
    (∀ t : RType, claimOmit t = true → shouldOmit Framework.klaxon t = true)
      ∧ (∀ t : RType, shouldOmit Framework.none t = false)
      ∧ (∀ (name ty : String) (nullable last : Bool),
          kotlinValLine true name ty nullable last
            = "// " ++ kotlinValLine false name ty nullable last)
      ∧ (∀ propName jsonName : String,
          "ignored = true" ∈ klaxonJsonProps propName jsonName true
            ∧ klaxonRenameAttribute propName jsonName true
                = some ("@Json("
                    ++ ", ".intercalate (klaxonJsonProps propName jsonName true) ++ ")")) := by
  refine ⟨?_, ?_, ?_, ?_⟩
  · intro t h
    exact claimOmitF_shouldOmitF t.size t le_rfl h
  · intro t
    exact shouldOmitF_none t.size t
  · intro name ty nullable last
    simp [kotlinValLine, string_empty_append, ← String.append_assoc]
  · intro propName jsonName
    constructor
    · simp [klaxonJsonProps]
    · simp [klaxonRenameAttribute, klaxonJsonProps]

/-- Witness for C10 at a non-nullable union and a concrete property. -/
theorem c10_witness :
    claimOmit (RType.unionType "U" [RType.integerType, RType.stringType]) = true
      ∧ shouldOmit Framework.klaxon (RType.unionType "U" [RType.integerType, RType.stringType]) = true
      ∧ shouldOmit Framework.none (RType.unionType "U" [RType.integerType, RType.stringType]) = false
      ∧ kotlinValLine true "combinators" "Combinators" false true
          = "// " ++ kotlinValLine false "combinators" "Combinators" false true
      ∧ "ignored = true" ∈ klaxonJsonProps "combinators" "combinators" true := by
  refine ⟨by decide, c10_klaxon_omission.1 _ (by decide), c10_klaxon_omission.2.1 _,
    c10_klaxon_omission.2.2.1 "combinators" "Combinators" false true,
    (c10_klaxon_omission.2.2.2 "combinators" "combinators").1⟩
